import Mathlib

/-!
Shallow embedding of the ao3-to-kindle client code relevant to the frozen
claims: the error classifier and retry loop of `src/js/utils.js`
(UtilsManager), and the request queue, file download, URL building and
filename sanitisation of the AO3Manager (`src/unnamed/part_001`).

JavaScript numbers used in delay arithmetic are modelled as rationals;
machine strings as Lean strings (lists of characters).  Errors thrown by
the code are modelled as values of explicit error types.
-/

/-- Characters matched by the JavaScript regexp class `\s` and removed by
`String.prototype.trim`: ASCII whitespace, NBSP, BOM and the Unicode line
and paragraph separators (the whitespace forms relevant to this
application's inputs). -/
def jsWs (c : Char) : Bool :=
  c = ' ' || c = '\t' || c = '\n' || c = '\r' ||
  c.toNat = 11 || c.toNat = 12 || c.toNat = 0xa0 || c.toNat = 0xfeff ||
  c.toNat = 0x2028 || c.toNat = 0x2029

/-- JavaScript line terminators; the regexp dot `.` matches any character
except these. -/
def isLineTerm (c : Char) : Bool :=
  c = '\n' || c = '\r' || c.toNat = 0x2028 || c.toNat = 0x2029

/-- Substring test on character lists (JavaScript `String.prototype.includes`,
case sensitive).  The empty pattern is contained in every string. -/
def hasSubstrList (pat : List Char) : List Char → Bool
  | [] => pat.isEmpty
  | c :: t => pat.isPrefixOf (c :: t) || hasSubstrList pat t

/-- `s.includes(pat)` for JavaScript strings. -/
def jsIncludes (s pat : String) : Bool := hasSubstrList pat.toList s.toList

/-- Case-insensitive prefix test on character lists (for `/.../i` regexps
whose pattern is a literal word). -/
def ciHasPfx : List Char → List Char → Bool
  | [], _ => true
  | _ :: _, [] => false
  | p :: ps, c :: cs => (p.toLower == c.toLower) && ciHasPfx ps cs

/-- Case-insensitive substring test (a `/word/i` regexp test). -/
def ciHasSubstr (pat : List Char) : List Char → Bool
  | [] => pat.isEmpty
  | c :: t => ciHasPfx pat (c :: t) || ciHasSubstr pat t

/-- `/word/i.test(s)` for a literal word `pat`. -/
def ciTest (s pat : String) : Bool := ciHasSubstr pat.toList s.toList

/-- Search for the literal `url` (case-insensitively) before any line
terminator: the `.*url` part of the regexp `/invalid.*url/i`. -/
def urlAfterGap : List Char → Bool
  | [] => false
  | c :: t => ciHasPfx ['u', 'r', 'l'] (c :: t) || (!isLineTerm c && urlAfterGap t)

/-- The regexp test `/invalid.*url/i.test(s)` on a character list:
some occurrence of `invalid` is followed, within the same line, by `url`. -/
def invalidUrlTest : List Char → Bool
  | [] => false
  | c :: t =>
    (ciHasPfx ['i', 'n', 'v', 'a', 'l', 'i', 'd'] (c :: t) && urlAfterGap (List.drop 7 (c :: t)))
      || invalidUrlTest t

/-- Value of a run of decimal digits. -/
def digitsToNat (ds : List Char) : Nat :=
  ds.foldl (fun a c => a * 10 + (c.toNat - '0'.toNat)) 0

/-- Parse a maximal leading run of digits; `none` models NaN. -/
def parseLeadingDigits (cs : List Char) : Option Nat :=
  let ds := cs.takeWhile Char.isDigit
  if ds.isEmpty then none else some (digitsToNat ds)

/-- JavaScript `parseInt(s, 10)`: skip leading whitespace, allow a sign,
read a maximal digit run; `none` models NaN. -/
def parseIntJS (s : String) : Option Int :=
  match s.toList.dropWhile jsWs with
  | '-' :: rest => (parseLeadingDigits rest).map (fun n => -(n : Int))
  | '+' :: rest => (parseLeadingDigits rest).map (fun n => (n : Int))
  | cs => (parseLeadingDigits cs).map (fun n => (n : Int))

/-- Drop a trailing run of whitespace (the right half of
`String.prototype.trim`), keeping the input's order. -/
def dropTrailingWs : List Char → List Char
  | [] => []
  | c :: cs =>
    let r := dropTrailingWs cs
    if r.isEmpty && jsWs c then [] else c :: r

/-- `String.prototype.trim` on a character list. -/
def jsTrimList (l : List Char) : List Char := dropTrailingWs (l.dropWhile jsWs)

/-- `String.prototype.trim`. -/
def jsTrimStr (s : String) : String := String.mk (jsTrimList s.toList)

/-- `String.prototype.toLowerCase` on the character list (ASCII case
mapping, the only case this application's format strings exercise). -/
def jsToLower (s : String) : String := String.mk (s.toList.map Char.toLower)

/-- A JavaScript `x || d` default for an optional string field (absent,
`null` and the empty string are all falsy). -/
def jsOrStr (o : Option String) (d : String) : String :=
  match o with
  | some s => if s = "" then d else s
  | none => d

/-- A JavaScript truthiness filter for an optional numeric field: absent,
`null` and `0` are falsy. -/
def jsTruthyNum (o : Option Int) : Option Int :=
  match o with
  | some n => if n = 0 then none else some n
  | none => none

/-- Truthiness of the classifier's `retryAfter` field (`null`, NaN and `0`
are falsy; NaN is collapsed into `none`, see `classifyError`). -/
def jsTruthyRetryAfter : Option Int → Bool
  | some n => n != 0
  | none => false

/-- The structured JSON error body attached by `fetchWorkPage`/`downloadFile`
when the proxy answers with a JSON error (`error.response`).  The worker
sends `{error, status, statusText, retryAfter}` bodies for relayed upstream
failures (no `type` field) and `{error, type, timestamp}` bodies from its
catch handler (no `retryAfter` field); all fields are modelled optional.
`headersRetryAfter` models `error.response.headers.get('retry-after')` for
the shapes `extractRetryAfter` probes. -/
structure ProxyResponse where
  rtype : Option String
  errorText : Option String
  retryAfter : Option String
  headersRetryAfter : Option String
deriving DecidableEq, Repr

/-- A raised JavaScript error as the classifier sees it: `message`,
optional numeric `status` and `code`, and the optional structured proxy
body `response`.  `response = none` also covers a non-object `response`
value, which the classifier's first branch skips and whose properties read
as `undefined`. -/
structure JSError where
  message : String
  status : Option Int
  code : Option Int
  response : Option ProxyResponse
deriving DecidableEq, Repr

/-- `error.status || error.code || 0` (`classifyError`, utils.js line 130). -/
def statusOf (e : JSError) : Int :=
  (((jsTruthyNum e.status).orElse (fun _ => jsTruthyNum e.code)).getD 0)

/-- `String(error.status || error.code || '')` (`isNonRetryableError`,
utils.js line 107). -/
def statusStr (e : JSError) : String :=
  match (jsTruthyNum e.status).orElse (fun _ => jsTruthyNum e.code) with
  | some n => toString n
  | none => ""

/-- One pattern pass of `isNonRetryableError` (utils.js lines 93-104):
true iff any of the ten regexps matches the given string. -/
def nonRetryablePattern (s : String) : Bool :=
  ciTest s "authentication" || ciTest s "unauthorized" || ciTest s "forbidden" ||
  ciTest s "not found" || invalidUrlTest s.toList || ciTest s "malformed" ||
  ciTest s "bad request" || jsIncludes s "413" || jsIncludes s "414" ||
  jsIncludes s "400"

/-- `UtilsManager.isNonRetryableError` (utils.js lines 92-112): some
pattern matches the message or the stringified status. -/
def isNonRetryableError (e : JSError) : Bool :=
  nonRetryablePattern e.message || nonRetryablePattern (statusStr e)

/-- The classifier's result object (`ClassifiedError` in the spec).
`retryAfter = none` models both `null` and NaN, which agree at every use
site (only truthiness and display are ever consulted). -/
structure ClassifiedError where
  ctype : String
  userMessage : String
  isRetryable : Bool
  retryAfter : Option Int
deriving DecidableEq, Repr

/-- `UtilsManager.extractRetryAfter` (utils.js lines 252-261): read a
`retry-after` header from `error.response.headers`, seconds to
milliseconds, `null` on absence or NaN. -/
def extractRetryAfter (e : JSError) : Option Int :=
  match e.response with
  | some resp =>
    match resp.headersRetryAfter with
    | some h => (parseIntJS h).map (fun n => n * 1000)
    | none => none
  | none => none

/-- `Math.ceil(n / 1000)` on an integer numerator. -/
def ceilDivThousand (n : Int) : Int := -((-n).fdiv 1000)

/-- `UtilsManager.classifyError` (utils.js lines 128-247), branch for
branch.  The first branch fires when `error.response` is an object; the
remaining rules only see errors without a structured response body. -/
def classifyError : JSError → ClassifiedError
  | ⟨message, _, _, some resp⟩ =>
    { ctype := jsOrStr resp.rtype "worker_error"
      userMessage := jsOrStr resp.errorText message
      isRetryable := resp.rtype = some "rate_limit_error" || resp.rtype = some "timeout_error"
      retryAfter :=
        match resp.retryAfter with
        | some s => if s = "" then none else (parseIntJS s).map (fun n => n * 1000)
        | none => none }
  | ⟨message, status?, code?, none⟩ =>
    let e : JSError := ⟨message, status?, code?, none⟩
    let status := statusOf e
    if jsIncludes message "fetch" || jsIncludes message "NetworkError"
        || jsIncludes message "Failed to fetch" then
      ⟨"network",
        "Network connection error. Please check your internet connection and try again.",
        true, none⟩
    else if jsIncludes message "CORS" || jsIncludes message "Cross-Origin" then
      ⟨"cors",
        "Unable to connect to the service. This might be a temporary issue, please try again.",
        true, none⟩
    else if status = 429 || jsIncludes message "rate limit"
        || jsIncludes message "too many requests" || jsIncludes message "quota"
        || jsIncludes message "throttle" then
      let retryAfter := extractRetryAfter e
      let waitTime : Int :=
        match retryAfter with
        | some n => if n = 0 then 60 else ceilDivThousand n
        | none => 60
      ⟨"rate_limit",
        "Service is temporarily busy. Please wait " ++ toString waitTime
          ++ " seconds and try again.",
        true, retryAfter⟩
    else if 500 ≤ status ∧ status < 600 then
      ⟨"server_error",
        if jsIncludes message "archiveofourown" || jsIncludes message "AO3" then
          "AO3 is currently experiencing issues or may be under maintenance. Please try again in a few minutes."
        else
          "The server is experiencing issues. Please try again in a few moments.",
        true, none⟩
    else if status = 503 || jsIncludes message "service unavailable"
        || jsIncludes message "maintenance" then
      ⟨"service_unavailable",
        if jsIncludes message "archiveofourown" || jsIncludes message "AO3" then
          "AO3 is currently under maintenance or experiencing high traffic. Please try again in 10-15 minutes."
        else
          "The service is temporarily unavailable. Please try again later.",
        true, none⟩
    else if status = 401 || jsIncludes message "unauthorized"
        || jsIncludes message "authentication" then
      ⟨"auth_error", "Authentication failed. Please sign in again.", false, none⟩
    else if status = 413 || jsIncludes message "too large" || jsIncludes message "25MB" then
      ⟨"file_too_large",
        "File is too large for Gmail (25MB limit). Try a different format.", false, none⟩
    else if status = 404 || jsIncludes message "not found" then
      ⟨"not_found",
        "The requested content was not found. Please check the URL.", false, none⟩
    else if status = 400 || jsIncludes message "bad request" || jsIncludes message "invalid" then
      ⟨"bad_request",
        "Invalid request. Please check your input and try again.", false, none⟩
    else
      ⟨"unknown", "An unexpected error occurred. Please try again.", true, none⟩

/-- Disjunction of every classification rule's guard: `e` matches at least
one classification rule of `classifyError` (the structured-body rule or
one of the message/status rules). -/
abbrev matchesSomeClassifyRule (e : JSError) : Prop :=
  e.response.isSome = true
    ∨ jsIncludes e.message "fetch" = true ∨ jsIncludes e.message "NetworkError" = true
    ∨ jsIncludes e.message "Failed to fetch" = true
    ∨ jsIncludes e.message "CORS" = true ∨ jsIncludes e.message "Cross-Origin" = true
    ∨ statusOf e = 429 ∨ jsIncludes e.message "rate limit" = true
    ∨ jsIncludes e.message "too many requests" = true ∨ jsIncludes e.message "quota" = true
    ∨ jsIncludes e.message "throttle" = true
    ∨ (500 ≤ statusOf e ∧ statusOf e < 600)
    ∨ statusOf e = 503 ∨ jsIncludes e.message "service unavailable" = true
    ∨ jsIncludes e.message "maintenance" = true
    ∨ statusOf e = 401 ∨ jsIncludes e.message "unauthorized" = true
    ∨ jsIncludes e.message "authentication" = true
    ∨ statusOf e = 413 ∨ jsIncludes e.message "too large" = true
    ∨ jsIncludes e.message "25MB" = true
    ∨ statusOf e = 404 ∨ jsIncludes e.message "not found" = true
    ∨ statusOf e = 400 ∨ jsIncludes e.message "bad request" = true
    ∨ jsIncludes e.message "invalid" = true

/-- The failure `fetchWorkPage` would raise for a worker rate-limit reply
whose JSON body declares the catch-path label `rate_limit_error` together
with a relayed `retryAfter` of 30 seconds: the classifier marks it
retryable and records the server-dictated delay. -/
def proxyRateLimitError : JSError :=
  ⟨"AO3 is rate limiting requests. Please wait a moment and try again.", some 429, none,
    some ⟨some "rate_limit_error",
      some "AO3 is rate limiting requests. Please wait a moment and try again.",
      some "30", none⟩⟩

/-- Retry policy of `UtilsManager.retryRequest` (utils.js lines 22-28),
with its default values.  Delays are exact rationals. -/
structure RetryOptions where
  maxRetries : Nat := 3
  baseDelay : ℚ := 1000
  maxDelay : ℚ := 10000
  exponentialBase : ℚ := 2
  jitter : Bool := true
deriving DecidableEq, Repr

/-- Outcome of one attempt of the retried operation. -/
inductive ReqResult where
  | ok (v : Nat)
  | err (e : JSError)
deriving DecidableEq, Repr

/-- What a whole `retryRequest` run did: number of attempts performed, the
waits inserted between attempts (in order), and the final result (the
returned value, or the error thrown). -/
structure RetryOutcome where
  attempts : Nat
  delays : List ℚ
  result : ReqResult
deriving DecidableEq, Repr

/-- The error thrown when all attempts fail (utils.js line 86). -/
def wrapRetryError (maxRetries : Nat) (e : JSError) : JSError :=
  ⟨"Request failed after " ++ toString (maxRetries + 1) ++ " attempts: " ++ e.message,
    none, none, none⟩

/-- The exponential-backoff delay with optional jitter (utils.js lines
66-75); `r` models the `Math.random()` draw of that iteration. -/
def backoffDelay (opts : RetryOptions) (attempt : Nat) (r : ℚ) : ℚ :=
  let d := min (opts.baseDelay * opts.exponentialBase ^ attempt) opts.maxDelay
  if opts.jitter then d * (1 / 2 + r * (1 / 2)) else d

/-- The wait inserted after the failure of `attempt` (utils.js lines 57-78):
the server-dictated `retryAfter` when the classified type is exactly
`rate_limit` and `retryAfter` is truthy, else exponential backoff. -/
def retryDelay (opts : RetryOptions) (e : JSError) (attempt : Nat) (r : ℚ) : ℚ :=
  let classified := classifyError e
  if classified.ctype = "rate_limit" && jsTruthyRetryAfter classified.retryAfter then
    ((classified.retryAfter.getD 0 : Int) : ℚ)
  else
    backoffDelay opts attempt r

/-- The attempt loop of `UtilsManager.retryRequest` (utils.js lines 32-82):
`attempt` is the current 0-based attempt index, `fuel` the remaining
retries (`maxRetries - attempt`), `delays` the waits inserted so far.
`step i` is the outcome of the i-th invocation of `requestFn`, `rand i`
the `Math.random()` draw after the i-th failure. -/
def retryGo (step : Nat → ReqResult) (rand : Nat → ℚ) (opts : RetryOptions) :
    Nat → Nat → List ℚ → RetryOutcome
  | attempt, fuel, delays =>
    match step attempt with
    | .ok v => ⟨attempt + 1, delays, .ok v⟩
    | .err e =>
      if isNonRetryableError e then ⟨attempt + 1, delays, .err e⟩
      else
        match fuel with
        | 0 => ⟨attempt + 1, delays, .err (wrapRetryError opts.maxRetries e)⟩
        | fuel' + 1 =>
          retryGo step rand opts (attempt + 1) fuel'
            (delays ++ [retryDelay opts e attempt (rand attempt)])

/-- `UtilsManager.retryRequest` (utils.js lines 21-87). -/
def retryRequest (step : Nat → ReqResult) (rand : Nat → ℚ) (opts : RetryOptions) :
    RetryOutcome :=
  retryGo step rand opts 0 opts.maxRetries []

/-- `UtilsManager.isFileSizeValid` (utils.js lines 287-290). -/
def isFileSizeValid (sizeInBytes : Int) (limitInMB : Int := 25) : Bool :=
  sizeInBytes ≤ limitInMB * 1024 * 1024

/-- `isFileSizeValid(parseInt(header, 10), 25)`: a NaN size compares false
against the limit, so an unparsable declared length fails the check. -/
def isFileSizeValidOpt (size : Option Int) (limitInMB : Int := 25) : Bool :=
  match size with
  | some n => isFileSizeValid n limitInMB
  | none => false

/-- The failure condition raised by `AO3Manager.downloadFile`
(part_001 lines 281-344): a non-OK proxy response, or the
`file_too_large` condition (the thrown message names the 25MB Gmail
limit; its prose, which embeds a float-formatted size, is abstracted to
the condition itself). -/
inductive DlCondition where
  | httpError (status : Int)
  | fileTooLarge
deriving DecidableEq, Repr

/-- The usable file produced by `downloadFile`: the base64 payload is
abstracted to its byte count, which is what every claim constrains. -/
structure FileArtifact where
  size : Nat
  format : String
  mimeType : String
deriving DecidableEq, Repr

/-- A JavaScript bracket lookup on an object literal also reaches the
inherited `Object.prototype` members.  Since the keys this code looks up
are first lowercased and property names are case sensitive, exactly two
inherited members remain reachable: `constructor` (the `Object`
constructor function) and `__proto__` (the `Object.prototype` object).
Both are truthy, so they defeat `|| fallback` defaults; they are modelled
by the strings their template-literal/`String(...)` conversions
produce. -/
def objectProtoLookup (key : String) : Option String :=
  if key = "constructor" then some "function Object() \x7b [native code] \x7d"
  else if key = "__proto__" then some "[object Object]"
  else none

/-- `AO3Manager.getMimeType` (part_001 lines 392-401): the object lookup
`mimeTypes[format.toLowerCase()] || 'application/octet-stream'`, including
the inherited `Object.prototype` members that a lookup of `constructor`
or `__proto__` reaches (truthy, so the octet-stream fallback is
skipped). -/
def getMimeType (format : String) : String :=
  let f := jsToLower format
  if f = "mobi" then "application/x-mobipocket-ebook"
  else if f = "epub" then "application/epub+zip"
  else if f = "azw3" then "application/vnd.amazon.ebook"
  else if f = "pdf" then "application/pdf"
  else
    match objectProtoLookup f with
    | some v => v
    | none => "application/octet-stream"

/-- The proxy's reply to a download request as `downloadFile` consumes it:
HTTP status/ok flag, the declared `content-length` header if present, and
the byte count of the body that an `arrayBuffer()` read would produce. -/
structure DlResponse where
  ok : Bool
  status : Int
  contentLength : Option String
  bodyBytes : Nat
deriving DecidableEq, Repr

/-- Result of `AO3Manager.downloadFile`. -/
inductive DlOutcome where
  | rejected (c : DlCondition)
  | artifact (a : FileArtifact)
deriving DecidableEq, Repr

/-- `AO3Manager.downloadFile` (part_001 lines 281-344), download phase:
reject non-OK responses; reject (file_too_large) when the declared
`content-length` parses to more than the 25 MiB limit, before the body is
read; read the body and reject (file_too_large) when the received byte
count exceeds the limit; otherwise return the artifact. -/
def downloadFile (resp : DlResponse) (format : String) : DlOutcome :=
  if resp.ok = false then .rejected (.httpError resp.status)
  else
    let headerOk :=
      match resp.contentLength with
      | some cl => isFileSizeValidOpt (parseIntJS cl) 25
      | none => true
    if headerOk = false then .rejected .fileTooLarge
    else if isFileSizeValid (resp.bodyBytes : Int) 25 = false then
      .rejected .fileTooLarge
    else
      .artifact ⟨resp.bodyBytes, format, getMimeType format⟩

/-- Result of `UtilsManager.validateAO3Url`. -/
inductive UrlValidation where
  | invalid (error : String)
  | valid (workId : String) (originalUrl : String) (cleanUrl : String)
deriving DecidableEq, Repr

/-- The pieces of a parsed URL that `validateAO3Url` consults. -/
structure URLParts where
  protocol : String
  hostname : String
  pathname : String
deriving DecidableEq, Repr

/-- Find the first `://` of a URL string, returning the scheme before it
and the remainder after it. -/
def splitScheme : List Char → Option (List Char × List Char)
  | [] => none
  | ':' :: '/' :: '/' :: rest => some ([], rest)
  | c :: rest => (splitScheme rest).map (fun p => (c :: p.1, p.2))

/-- The browser's `new URL(s)` restricted to the simple absolute
`scheme://host/path` shapes this application handles (no userinfo, port or
IP literals): scheme and host are lowercased, the path runs to the query
or fragment, an absent path reads as `/`.  `none` models the constructor
throwing. -/
def parseURL (s : String) : Option URLParts :=
  match splitScheme s.toList with
  | none => none
  | some (sch, rest) =>
    if sch.isEmpty then none
    else
      let host := rest.takeWhile (fun c => !(c = '/' || c = '?' || c = '#'))
      let afterHost := rest.dropWhile (fun c => !(c = '/' || c = '?' || c = '#'))
      if host.isEmpty then none
      else
        let path := afterHost.takeWhile (fun c => !(c = '?' || c = '#'))
        some ⟨String.mk (sch.map Char.toLower) ++ ":",
              String.mk (host.map Char.toLower),
              if path.isEmpty then "/" else String.mk path⟩

/-- Whether `after` completes a match of the regexp
`^\/works\/(\d+)(?:\/chapters\/\d+)?(?:\/.*)?$` once the digit group has
been taken maximally: the remainder must be empty, or a `/` followed by
characters the dot can match (no line terminators).  The optional
`/chapters/<digits>` group is subsumed by this case. -/
def worksTailOk : List Char → Bool
  | [] => true
  | '/' :: rest => rest.all (fun c => !isLineTerm c)
  | _ => false

/-- The match `pathname.match(/^\/works\/(\d+)(?:\/chapters\/\d+)?(?:\/.*)?$/)`
(utils.js line 345), returning the captured digit group. -/
def worksMatch (path : List Char) : Option (List Char) :=
  match path with
  | '/' :: 'w' :: 'o' :: 'r' :: 'k' :: 's' :: '/' :: rest =>
    let ds := rest.takeWhile Char.isDigit
    let after := rest.dropWhile Char.isDigit
    if ds.isEmpty then none
    else if worksTailOk after then some ds else none
  | _ => none

/-- `UtilsManager.validateAO3Url` (utils.js lines 312-368).  The outer
try/catch's fallback message is unreachable in the model (no exceptions);
the `!workId` guard is subsumed by the match requiring at least one
digit. -/
def validateAO3Url (url : String) : UrlValidation :=
  if url = "" then .invalid "URL is required"
  else
    let trimmedUrl := jsTrimStr url
    if trimmedUrl = "" then .invalid "URL cannot be empty"
    else
      match parseURL trimmedUrl with
      | none => .invalid "Invalid URL format. Please check the URL and try again."
      | some urlObj =>
        if ¬(urlObj.protocol = "http:" ∨ urlObj.protocol = "https:") then
          .invalid "URL must use HTTP or HTTPS protocol"
        else if urlObj.hostname ≠ "archiveofourown.org" then
          .invalid "URL must be from archiveofourown.org. Other fanfiction sites are not supported."
        else
          match worksMatch urlObj.pathname.toList with
          | none =>
            .invalid "URL must be a valid AO3 work URL (e.g., https://archiveofourown.org/works/12345)"
          | some ds =>
            let workId := String.mk ds
            if workId.length > 10 then .invalid "Invalid work ID in URL"
            else .valid workId trimmedUrl ("https://archiveofourown.org/works/" ++ workId)

/-- The format-table lookup `formatMap[format.toLowerCase()]` of
`AO3Manager.buildDownloadUrl` (part_001 lines 53-58): the four own
properties, and past them the inherited `Object.prototype` members the
bracket lookup reaches (see `objectProtoLookup`). -/
def formatMap (f : String) : Option String :=
  if f = "mobi" then some "mobi"
  else if f = "epub" then some "epub"
  else if f = "azw3" then some "azw3"
  else if f = "pdf" then some "pdf"
  else objectProtoLookup f

/-- `AO3Manager.buildDownloadUrl` (part_001 lines 52-62): an inherited
truthy lookup result defeats the `|| 'mobi'` fallback just as an own
property does. -/
def buildDownloadUrl (workId : String) (format : String := "mobi") : String :=
  let ao3Format := (formatMap (jsToLower format)).getD "mobi"
  "https://archiveofourown.org/downloads/" ++ workId ++ "/" ++ workId ++ "." ++ ao3Format

/-- The per-format download-URL map `AO3Manager.buildDownloadUrls` builds
(part_001 lines 265-272) as `fetchWork`'s bracket lookup sees it: the four
own properties hold the four format URLs, and the inherited
`Object.prototype` members are again reachable (and truthy). -/
def buildDownloadUrls (workId : String) (f : String) : Option String :=
  if f = "mobi" then some (buildDownloadUrl workId "mobi")
  else if f = "epub" then some (buildDownloadUrl workId "epub")
  else if f = "azw3" then some (buildDownloadUrl workId "azw3")
  else if f = "pdf" then some (buildDownloadUrl workId "pdf")
  else objectProtoLookup f

/-- `fetchWork`'s download-URL dispatch (part_001 lines 424-427):
`metadata.downloadUrls[format.toLowerCase()]`, where a falsy result makes
`fetchWork` throw `Format ... not supported` (modelled as `none`) instead
of falling back to mobi. -/
def fetchWorkDownloadUrl (workId format : String) : Option String :=
  buildDownloadUrls workId (jsToLower format)

/-- Characters stripped by `sanitizeFilename`'s first replace
(part_001 line 459). -/
def invalidFilenameChar (c : Char) : Bool :=
  c = '<' || c = '>' || c = ':' || c = '"' || c = '/' || c = '\\' ||
  c = '|' || c = '?' || c = '*'

/-- `.replace(/\s+/g, ' ')`: collapse each maximal whitespace run to a
single space; `prevWs` records whether the current position continues a
run. -/
def collapseWs : Bool → List Char → List Char
  | _, [] => []
  | prevWs, c :: cs =>
    if jsWs c then
      if prevWs then collapseWs true cs else ' ' :: collapseWs true cs
    else c :: collapseWs false cs

/-- `AO3Manager.sanitizeFilename` (part_001 lines 457-463): strip invalid
filename characters, collapse whitespace runs, trim, truncate to 100
characters. -/
def sanitizeFilename (filename : String) : String :=
  String.mk
    (List.take 100
      (jsTrimList (collapseWs false (filename.toList.filter (fun c => !invalidFilenameChar c)))))

/-- The filename `fetchWork` builds (part_001 lines 432-434). -/
def fetchWorkFileName (title authorString format : String) : String :=
  sanitizeFilename title ++ " - " ++ sanitizeFilename authorString ++ "." ++ jsToLower format

/-- `AO3Manager.minimumDelay` (part_001 line 11): milliseconds enforced
between queued requests. -/
def minimumDelay : Nat := 3000

/-- A queued operation as the drain loop sees it: how long its `fn()` runs
and whether it resolves. -/
structure QueuedOp where
  duration : Nat
  succeeds : Bool
deriving DecidableEq, Repr

/-- The drain loop of `AO3Manager.processQueue` (part_001 lines 95-143)
over the final enqueue order, returning each operation's dispatch
timestamp: wait out `minimumDelay` since `lastRequestTime` before invoking
`fn` (Date.now() is `now`), record `lastRequestTime` only when the
operation resolves, and pause 500 ms between queue items. -/
def drainQueue : Nat → Nat → List QueuedOp → List Nat
  | _, _, [] => []
  | now, lastRequestTime, op :: rest =>
    let dispatch :=
      if now - lastRequestTime < minimumDelay then lastRequestTime + minimumDelay else now
    let settled := dispatch + op.duration
    let lastRequestTime' := if op.succeeds then settled else lastRequestTime
    let next := match rest with
      | [] => settled
      | _ :: _ => settled + 500
    dispatch :: drainQueue next lastRequestTime' rest

/-! ### Helper lemmas -/

/-- In a run where every attempt fails with a retryable error, `retryGo`
appends exactly one `retryDelay` per consumed unit of fuel, indexed by the
attempt number. -/
theorem retryGo_allFail_delays (errs : Nat → JSError) (rand : Nat → ℚ) (opts : RetryOptions)
    (hnr : ∀ i, isNonRetryableError (errs i) = false) :
    ∀ (fuel attempt : Nat) (acc : List ℚ),
      (retryGo (fun i => .err (errs i)) rand opts attempt fuel acc).delays =
        acc ++ (List.range' attempt fuel).map (fun i => retryDelay opts (errs i) i (rand i)) := by
  intro fuel
  induction fuel with
  | zero =>
    intro attempt acc
    simp [retryGo, hnr attempt]
  | succ fuel' ih =>
    intro attempt acc
    rw [retryGo]
    simp only [hnr attempt, Bool.false_eq_true, if_false]
    rw [ih (attempt + 1) (acc ++ [retryDelay opts (errs attempt) attempt (rand attempt)])]
    rw [List.range'_succ]
    simp

/-- Bounds for the exponential-backoff delay: inside
`[D/2, D]` with jitter (for a random draw in `[0,1)`), exactly `D`
without, where `D = min (base * backoff ^ attempt) cap`. -/
theorem backoffDelay_bounds (opts : RetryOptions) (n : Nat) (r : ℚ)
    (hr0 : 0 ≤ r) (hr1 : r < 1) (hb : 0 ≤ opts.baseDelay) (hm : 0 ≤ opts.maxDelay)
    (he : 0 ≤ opts.exponentialBase) :
    (opts.jitter = true →
      1 / 2 * min (opts.baseDelay * opts.exponentialBase ^ n) opts.maxDelay
          ≤ backoffDelay opts n r ∧
      backoffDelay opts n r ≤ min (opts.baseDelay * opts.exponentialBase ^ n) opts.maxDelay) ∧
    (opts.jitter = false →
      backoffDelay opts n r = min (opts.baseDelay * opts.exponentialBase ^ n) opts.maxDelay) := by
  have hD : 0 ≤ min (opts.baseDelay * opts.exponentialBase ^ n) opts.maxDelay :=
    le_min (mul_nonneg hb (pow_nonneg he n)) hm
  constructor
  · intro hj
    simp only [backoffDelay, hj, if_true]
    constructor
    · nlinarith [mul_nonneg hD hr0]
    · nlinarith [mul_nonneg hD (by linarith : (0 : ℚ) ≤ 1 - r)]
  · intro hj
    simp [backoffDelay, hj]

/-! ### Claims -/

/-- C1 (amended): for every error matching `retryRequest`'s own
non-retryable patterns (`isNonRetryableError`), the loop performs exactly
one attempt, inserts no wait and rethrows that very error, regardless of
the configured `maxRetries`. -/
theorem retryRequest_nonretryable_single_attempt (step : Nat → ReqResult) (rand : Nat → ℚ)
    (opts : RetryOptions) (e : JSError) (h0 : step 0 = .err e)
    (hnr : isNonRetryableError e = true) :
    retryRequest step rand opts = ⟨1, [], .err e⟩ := by
  rw [retryRequest, retryGo, h0]
  simp [hnr]

/-- Witness for C1's theorem at a concrete not-found error. -/
theorem retryRequest_nonretryable_single_attempt_witness :
    retryRequest (fun _ => .err ⟨"Not Found", some 404, none, none⟩) (fun _ => 0) {} =
      ⟨1, [], .err ⟨"Not Found", some 404, none, none⟩⟩ :=
  retryRequest_nonretryable_single_attempt _ _ _ _ rfl (by decide)

/-- C1 counterexample: a status-401 error with an unrelated message is
classified `auth_error` (not retryable), yet `retryRequest` retries it and
consumes all four attempts under the default policy, because
`isNonRetryableError`'s patterns do not cover a bare 401 status. -/
theorem retryRequest_auth_error_is_retried :
    (classifyError ⟨"Session check failed", some 401, none, none⟩).ctype = "auth_error" ∧
    (classifyError ⟨"Session check failed", some 401, none, none⟩).isRetryable = false ∧
    (retryRequest (fun _ => .err ⟨"Session check failed", some 401, none, none⟩)
        (fun _ => 0) {}).attempts = 4 ∧
    (retryRequest (fun _ => .err ⟨"Session check failed", some 401, none, none⟩)
        (fun _ => 0) {}).attempts ≠ 1 := by
  decide

/-- C2: `proxyRateLimitError` is classified with type `rate_limit_error`,
retryable, carrying the server-dictated `retryAfter` of 30000 ms, yet the
wait `retryRequest` inserts before the next attempt is the
exponential-backoff value (500 ms with a zero random draw), not 30000 ms:
the loop's guard compares the classified type against the literal
`rate_limit`, which no retryable classification produces, so the dictated
delay is ignored. -/
theorem retryRequest_ignores_proxy_retryAfter :
    (classifyError proxyRateLimitError).ctype = "rate_limit_error" ∧
    (classifyError proxyRateLimitError).isRetryable = true ∧
    (classifyError proxyRateLimitError).retryAfter = some 30000 ∧
    isNonRetryableError proxyRateLimitError = false ∧
    (retryRequest (fun _ => .err proxyRateLimitError) (fun _ => 0) {}).delays[0]? =
      some (retryDelay {} proxyRateLimitError 0 0) ∧
    retryDelay {} proxyRateLimitError 0 0 = 500 ∧
    (500 : ℚ) ≠ 30000 := by
  have hnr : isNonRetryableError proxyRateLimitError = false := by decide
  refine ⟨by decide, by decide, by decide, hnr, ?_, ?_, by norm_num⟩
  · rw [retryRequest,
      retryGo_allFail_delays (fun _ => proxyRateLimitError) (fun _ => 0) {} (fun _ => hnr)]
    rw [List.nil_append, List.getElem?_map,
      List.getElem?_range' 0 1 (show 0 < ({} : RetryOptions).maxRetries by norm_num)]
    rfl
  · have hcond : (decide ((classifyError proxyRateLimitError).ctype = "rate_limit") &&
        jsTruthyRetryAfter (classifyError proxyRateLimitError).retryAfter) = false := by decide
    simp only [retryDelay, hcond, Bool.false_eq_true, if_false, backoffDelay]
    norm_num [min_def]

/-- C5: every wait of a run whose failures are all retryable and carry no
truthy server-dictated delay is the exponential-backoff value for its
retry index: within `[D/2, D]` with jitter enabled (`D` the capped
exponential), exactly `D` with jitter disabled. -/
theorem retryRequest_backoff_window (errs : Nat → JSError) (rand : Nat → ℚ)
    (opts : RetryOptions)
    (hnr : ∀ i, isNonRetryableError (errs i) = false)
    (hnd : ∀ i, jsTruthyRetryAfter (classifyError (errs i)).retryAfter = false)
    (hr : ∀ i, 0 ≤ rand i ∧ rand i < 1)
    (hb : 0 ≤ opts.baseDelay) (hm : 0 ≤ opts.maxDelay) (he : 0 ≤ opts.exponentialBase) :
    ∀ (n : Nat) (d : ℚ),
      (retryRequest (fun i => .err (errs i)) rand opts).delays[n]? = some d →
      (opts.jitter = true →
        1 / 2 * min (opts.baseDelay * opts.exponentialBase ^ n) opts.maxDelay ≤ d ∧
        d ≤ min (opts.baseDelay * opts.exponentialBase ^ n) opts.maxDelay) ∧
      (opts.jitter = false →
        d = min (opts.baseDelay * opts.exponentialBase ^ n) opts.maxDelay) := by
  intro n d hd
  rw [retryRequest, retryGo_allFail_delays errs rand opts hnr opts.maxRetries 0 []] at hd
  simp only [List.nil_append, List.getElem?_map] at hd
  by_cases hn : n < opts.maxRetries
  · rw [List.getElem?_range' _ _ hn] at hd
    simp only [Option.map_some', Option.some.injEq] at hd
    have hdel : retryDelay opts (errs (0 + 1 * n)) (0 + 1 * n) (rand (0 + 1 * n)) = d := hd
    simp only [Nat.zero_add, Nat.one_mul] at hdel
    rw [retryDelay] at hdel
    simp only [hnd n, Bool.and_false, Bool.false_eq_true, if_false] at hdel
    rw [← hdel]
    exact backoffDelay_bounds opts n (rand n) (hr n).1 (hr n).2 hb hm he
  · rw [List.getElem?_eq_none] at hd
    · cases hd
    · simpa using Nat.le_of_not_lt hn

/-- Witness for C5's theorem: with the default policy, a constant network
error and random draw 1/2, the first wait is 750 ms and lies in the
claimed window. -/
theorem retryRequest_backoff_window_witness :
    1 / 2 * min ((1000 : ℚ) * 2 ^ 0) 10000 ≤ 750 ∧
      (750 : ℚ) ≤ min ((1000 : ℚ) * 2 ^ 0) 10000 := by
  have hnr : isNonRetryableError
      ⟨"NetworkError when attempting to fetch resource.", none, none, none⟩ = false := by
    decide
  have hnd : jsTruthyRetryAfter
      (classifyError
        ⟨"NetworkError when attempting to fetch resource.", none, none, none⟩).retryAfter
        = false := by
    decide
  have hr : (0 : ℚ) ≤ 1 / 2 ∧ (1 / 2 : ℚ) < 1 := by norm_num
  have hcond : (decide ((classifyError
      ⟨"NetworkError when attempting to fetch resource.", none, none, none⟩).ctype
        = "rate_limit") &&
      jsTruthyRetryAfter (classifyError
        ⟨"NetworkError when attempting to fetch resource.", none, none, none⟩).retryAfter)
      = false := by decide
  have hd : (retryRequest
      (fun _ => .err ⟨"NetworkError when attempting to fetch resource.", none, none, none⟩)
      (fun _ => (1 : ℚ) / 2) {}).delays[0]? = some 750 := by
    rw [retryRequest,
      retryGo_allFail_delays
        (fun _ => ⟨"NetworkError when attempting to fetch resource.", none, none, none⟩)
        (fun _ => (1 : ℚ) / 2) {} (fun _ => hnr)]
    rw [List.nil_append, List.getElem?_map,
      List.getElem?_range' 0 1 (show 0 < ({} : RetryOptions).maxRetries by norm_num)]
    simp only [Option.map_some', retryDelay, hcond, Bool.false_eq_true, if_false,
      backoffDelay]
    norm_num [min_def]
  exact (retryRequest_backoff_window
    (fun _ => ⟨"NetworkError when attempting to fetch resource.", none, none, none⟩)
    (fun _ => 1 / 2) {}
    (fun _ => hnr) (fun _ => hnd) (fun _ => hr)
    (by norm_num) (by norm_num) (by norm_num)
    0 750 hd).1 rfl

/-- C6: an error matching none of the classification rules falls through
to the `unknown` kind with `isRetryable = true` (and the classifier, a
total Lean function, cannot throw). -/
theorem classifyError_fallback_unknown (e : JSError)
    (h : ¬ matchesSomeClassifyRule e) :
    classifyError e =
      ⟨"unknown", "An unexpected error occurred. Please try again.", true, none⟩ := by
  obtain ⟨msg, st, cd, resp⟩ := e
  rw [matchesSomeClassifyRule] at h
  push_neg at h
  obtain ⟨h1, h2, h3, h4, h5, h6, h7, h8, h9, h10, h11, h12, h13, h14, h15, h16, h17,
    h18, h19, h20, h21, h22, h23, h24, h25, h26⟩ := h
  dsimp only at *
  cases resp with
  | some r => simp at h1
  | none =>
    simp only [Bool.not_eq_true] at h2 h3 h4 h5 h6 h8 h9 h10 h11 h14 h15
    simp only [Bool.not_eq_true] at h17 h18 h20 h21 h23 h25 h26
    have h12' : ¬(500 ≤ statusOf ⟨msg, st, cd, none⟩ ∧ statusOf ⟨msg, st, cd, none⟩ < 600) := by
      intro hc
      exact absurd hc.2 (not_lt.mpr (h12 hc.1))
    simp only [classifyError]
    simp [h2, h3, h4, h5, h6, h7, h8, h9, h10, h11, h12', h13, h14, h15, h16, h17, h18,
      h19, h20, h21, h22, h23, h24, h25, h26]

/-- Witness for C6's theorem at a concrete unclassifiable error. -/
theorem classifyError_fallback_unknown_witness :
    classifyError ⟨"xyzzy", none, none, none⟩ =
      ⟨"unknown", "An unexpected error occurred. Please try again.", true, none⟩ :=
  classifyError_fallback_unknown _ (by decide)

/-- First dispatch of a drain run happens no earlier than
`lastRequestTime + minimumDelay`. -/
theorem drainQueue_head_ge (ops : List QueuedOp) (now last d : Nat)
    (h : (drainQueue now last ops).head? = some d) : last + minimumDelay ≤ d := by
  cases ops with
  | nil => simp [drainQueue] at h
  | cons op rest =>
    simp only [drainQueue, List.head?_cons, Option.some.injEq] at h
    subst h
    by_cases hlt : now - last < minimumDelay
    · rw [if_pos hlt]
    · rw [if_neg hlt]
      simp only [minimumDelay] at hlt ⊢
      omega

/-- C3 (amended): when every drained operation resolves, consecutive
dispatch timestamps of the drain loop are at least `minimumDelay` apart. -/
theorem processQueue_min_spacing (ops : List QueuedOp) (now last : Nat)
    (hok : ∀ op ∈ ops, op.succeeds = true) :
    List.Chain' (fun a b => a + minimumDelay ≤ b) (drainQueue now last ops) := by
  induction ops generalizing now last with
  | nil => simp [drainQueue, List.chain'_nil]
  | cons op rest ih =>
    have hop : op.succeeds = true := hok op (List.mem_cons_self op rest)
    have hrest : ∀ o ∈ rest, o.succeeds = true := fun o ho => hok o (List.mem_cons_of_mem op ho)
    simp only [drainQueue, hop, if_true]
    rw [List.chain'_cons']
    constructor
    · intro y hy
      have hge := drainQueue_head_ge rest _ _ y (Option.mem_def.mp hy)
      omega
    · exact ih _ _ hrest

/-- Witness for C3's theorem: two succeeding operations drained from time
50000 dispatch with the minimum spacing. -/
theorem processQueue_min_spacing_witness :
    List.Chain' (fun a b => a + minimumDelay ≤ b)
      (drainQueue 50000 0 [⟨10, true⟩, ⟨0, true⟩]) :=
  processQueue_min_spacing _ _ _ (by decide)

/-- C3 counterexample: a failing first operation does not update
`lastRequestTime`, so the next operation dispatches after only the 500 ms
inter-item pause: dispatch timestamps 10000 and 10500, closer than
`minimumDelay`. -/
theorem processQueue_spacing_cex :
    drainQueue 10000 0 [⟨0, false⟩, ⟨0, true⟩] = [10000, 10500] ∧
    ¬ (10000 + minimumDelay ≤ 10500) := by
  decide

/-- C4: `downloadFile` rejects with the `file_too_large` condition when
the declared content-length parses above 25 MiB — for every body, i.e.
before the body is read — and when the received byte count exceeds
25 MiB (also when no content-length header was present); consequently a
returned artifact always has `size ≤ 25 MiB`. -/
theorem downloadFile_size_guards :
    (∀ (resp : DlResponse) (fmt s : String) (n : Int), resp.ok = true →
      resp.contentLength = some s → parseIntJS s = some n → 25 * 1024 * 1024 < n →
      downloadFile resp fmt = .rejected .fileTooLarge) ∧
    (∀ (resp : DlResponse) (fmt : String), resp.ok = true →
      25 * 1024 * 1024 < resp.bodyBytes →
      downloadFile resp fmt = .rejected .fileTooLarge) ∧
    (∀ (resp : DlResponse) (fmt : String) (a : FileArtifact),
      downloadFile resp fmt = .artifact a → a.size ≤ 25 * 1024 * 1024) := by
  refine ⟨?_, ?_, ?_⟩
  · intro resp fmt s n hok hcl hp hgt
    have hvalid : isFileSizeValidOpt (parseIntJS s) 25 = false := by
      rw [hp]
      exact decide_eq_false (not_le.mpr hgt)
    simp [downloadFile, hok, hcl, hvalid]
  · intro resp fmt hok hgt
    have hbody : isFileSizeValid (resp.bodyBytes : Int) 25 = false := by
      refine decide_eq_false (not_le.mpr ?_)
      omega
    cases hcl : resp.contentLength with
    | none => simp [downloadFile, hok, hcl, hbody]
    | some cl =>
      by_cases hh : isFileSizeValidOpt (parseIntJS cl) 25 = false
      · simp [downloadFile, hok, hcl, hh]
      · have hh' : isFileSizeValidOpt (parseIntJS cl) 25 = true := by
          revert hh
          cases isFileSizeValidOpt (parseIntJS cl) 25 <;> simp
        simp [downloadFile, hok, hcl, hh', hbody]
  · intro resp fmt a h
    simp only [downloadFile] at h
    split at h
    · simp at h
    · split at h
      · simp at h
      · split at h
        · simp at h
        · rename_i hguard
          simp only [DlOutcome.artifact.injEq] at h
          rw [← h]
          show resp.bodyBytes ≤ 25 * 1024 * 1024
          have ht : isFileSizeValid (resp.bodyBytes : Int) 25 = true := by
            revert hguard
            cases isFileSizeValid (resp.bodyBytes : Int) 25 <;> simp
          have hle : (resp.bodyBytes : Int) ≤ 25 * 1024 * 1024 := of_decide_eq_true ht
          omega

/-- Witness for C4's theorem: a 26214401-byte body with no declared
length is rejected as too large. -/
theorem downloadFile_size_guards_witness :
    downloadFile ⟨true, 200, none, 26214401⟩ "mobi" = .rejected .fileTooLarge :=
  downloadFile_size_guards.2.1 ⟨true, 200, none, 26214401⟩ "mobi" rfl (by norm_num)

/-- C9: the 25 MiB ceiling is inclusive: sizes up to and including
`25 * 1024 * 1024` pass `isFileSizeValid`, rejection happens only for
strictly greater sizes, and a download whose declared and received sizes
both equal exactly 25 MiB yields a usable artifact of that size. -/
theorem fileSize_boundary_inclusive :
    (∀ n : Int, n ≤ 25 * 1024 * 1024 → isFileSizeValid n 25 = true) ∧
    (∀ n : Int, 25 * 1024 * 1024 < n → isFileSizeValid n 25 = false) ∧
    downloadFile ⟨true, 200, some "26214400", 25 * 1024 * 1024⟩ "epub" =
      .artifact ⟨25 * 1024 * 1024, "epub", "application/epub+zip"⟩ := by
  refine ⟨?_, ?_, by decide⟩
  · intro n hn
    exact decide_eq_true hn
  · intro n hn
    exact decide_eq_false (not_le.mpr hn)

/-- Witness for C9's theorem at the exact boundary size. -/
theorem fileSize_boundary_inclusive_witness :
    isFileSizeValid (25 * 1024 * 1024) 25 = true :=
  fileSize_boundary_inclusive.1 (25 * 1024 * 1024) le_rfl

set_option maxRecDepth 4000 in
/-- C7: the two canonical work URLs validate to workId `12345`; the same
path on another hostname and a non-work path are rejected; an
11-digit work identifier is rejected as malformed, and every successful
validation returns a work identifier of at most 10 digits. -/
theorem validateAO3Url_spec :
    validateAO3Url "https://archiveofourown.org/works/12345" =
      .valid "12345" "https://archiveofourown.org/works/12345"
        "https://archiveofourown.org/works/12345" ∧
    validateAO3Url "https://archiveofourown.org/works/12345/chapters/9" =
      .valid "12345" "https://archiveofourown.org/works/12345/chapters/9"
        "https://archiveofourown.org/works/12345" ∧
    validateAO3Url "https://other-site.example/works/12345" =
      .invalid "URL must be from archiveofourown.org. Other fanfiction sites are not supported." ∧
    validateAO3Url "https://archiveofourown.org/tags/something" =
      .invalid "URL must be a valid AO3 work URL (e.g., https://archiveofourown.org/works/12345)" ∧
    validateAO3Url "https://archiveofourown.org/works/12345678901" =
      .invalid "Invalid work ID in URL" ∧
    (∀ url w o c, validateAO3Url url = .valid w o c → w.length ≤ 10) ∧
    (∀ url u, parseURL (jsTrimStr url) = some u →
      (u.protocol = "http:" ∨ u.protocol = "https:") →
      u.hostname ≠ "archiveofourown.org" →
      validateAO3Url url =
        .invalid "URL must be from archiveofourown.org. Other fanfiction sites are not supported.") ∧
    (∀ url w o c, validateAO3Url url = .valid w o c →
      ∃ u, parseURL (jsTrimStr url) = some u ∧ u.hostname = "archiveofourown.org") := by
  refine ⟨by decide, by decide, by decide, by decide, by decide, ?_, ?_, ?_⟩
  · intro url w o c h
    simp only [validateAO3Url] at h
    split at h
    · exact absurd h (by simp)
    · split at h
      · exact absurd h (by simp)
      · split at h
        · exact absurd h (by simp)
        · split at h
          · exact absurd h (by simp)
          · split at h
            · exact absurd h (by simp)
            · split at h
              · exact absurd h (by simp)
              · split at h
                · exact absurd h (by simp)
                · rename_i hlen
                  rw [UrlValidation.valid.injEq] at h
                  obtain ⟨hw, _, _⟩ := h
                  rw [← hw]
                  omega
  · intro url u hp hprot hhost
    have htrim : jsTrimStr url ≠ "" := by
      intro h0
      rw [h0] at hp
      rw [show parseURL "" = none from rfl] at hp
      exact Option.noConfusion hp
    have hurl : url ≠ "" := by
      intro h0
      apply htrim
      rw [h0]
      rfl
    simp only [validateAO3Url]
    rw [if_neg hurl, if_neg htrim]
    simp only [hp]
    rw [if_neg (not_not_intro hprot), if_pos hhost]
  · intro url w o c h
    simp only [validateAO3Url] at h
    split at h
    · exact absurd h (by simp)
    · split at h
      · exact absurd h (by simp)
      · split at h
        · exact absurd h (by simp)
        · rename_i urlObj hparse
          split at h
          · exact absurd h (by simp)
          · split at h
            · exact absurd h (by simp)
            · rename_i hhost
              exact ⟨urlObj, hparse, not_ne_iff.mp hhost⟩

set_option maxRecDepth 4000 in
/-- Witness for C7's theorem: the identifier extracted from the canonical
URL has at most 10 digits, and a concrete foreign hostname is rejected
through the universal hostname clause. -/
theorem validateAO3Url_spec_witness :
    ("12345" : String).length ≤ 10 ∧
    validateAO3Url "https://another-archive.example/works/999" =
      .invalid "URL must be from archiveofourown.org. Other fanfiction sites are not supported." :=
  ⟨validateAO3Url_spec.2.2.2.2.2.1 "https://archiveofourown.org/works/12345" "12345"
    "https://archiveofourown.org/works/12345" "https://archiveofourown.org/works/12345"
    (by decide),
   validateAO3Url_spec.2.2.2.2.2.2.1 "https://another-archive.example/works/999"
    ⟨"https:", "another-archive.example", "/works/999"⟩ (by decide) (Or.inr rfl) (by decide)⟩

/-- C8 (amended): every download URL is
`https://archiveofourown.org/downloads/<workId>/<workId>.<ext>` where
`ext` is one of mobi, epub, azw3, pdf or the stringified inherited
`Object.prototype` member the bracket lookup can leak; a requested format
whose lowercasing is outside {mobi, epub, azw3, pdf, constructor,
__proto__} falls back to mobi in `buildDownloadUrl` — while `fetchWork`'s
own lookup throws `Format not supported` (`none`) for it instead of
falling back — and the four recognized formats map to their own URLs. -/
theorem buildDownloadUrl_formats (workId format : String) :
    (∃ ext, (ext = "mobi" ∨ ext = "epub" ∨ ext = "azw3" ∨ ext = "pdf" ∨
        ext = "function Object() \x7b [native code] \x7d" ∨ ext = "[object Object]") ∧
      buildDownloadUrl workId format =
        "https://archiveofourown.org/downloads/" ++ workId ++ "/" ++ workId ++ "." ++ ext) ∧
    (¬(jsToLower format = "mobi" ∨ jsToLower format = "epub" ∨ jsToLower format = "azw3" ∨
        jsToLower format = "pdf" ∨ jsToLower format = "constructor" ∨
        jsToLower format = "__proto__") →
      buildDownloadUrl workId format =
        "https://archiveofourown.org/downloads/" ++ workId ++ "/" ++ workId ++ "." ++ "mobi") ∧
    (¬(jsToLower format = "mobi" ∨ jsToLower format = "epub" ∨ jsToLower format = "azw3" ∨
        jsToLower format = "pdf" ∨ jsToLower format = "constructor" ∨
        jsToLower format = "__proto__") →
      fetchWorkDownloadUrl workId format = none) ∧
    (∀ f, (f = "mobi" ∨ f = "epub" ∨ f = "azw3" ∨ f = "pdf") →
      fetchWorkDownloadUrl workId f = some (buildDownloadUrl workId f)) := by
  refine ⟨?_, ?_, ?_, ?_⟩
  · by_cases h1 : jsToLower format = "mobi"
    · exact ⟨"mobi", Or.inl rfl, by simp [buildDownloadUrl, formatMap, h1]⟩
    · by_cases h2 : jsToLower format = "epub"
      · exact ⟨"epub", Or.inr (Or.inl rfl), by simp [buildDownloadUrl, formatMap, h1, h2]⟩
      · by_cases h3 : jsToLower format = "azw3"
        · exact ⟨"azw3", Or.inr (Or.inr (Or.inl rfl)),
            by simp [buildDownloadUrl, formatMap, h1, h2, h3]⟩
        · by_cases h4 : jsToLower format = "pdf"
          · exact ⟨"pdf", Or.inr (Or.inr (Or.inr (Or.inl rfl))),
              by simp [buildDownloadUrl, formatMap, h1, h2, h3, h4]⟩
          · by_cases h5 : jsToLower format = "constructor"
            · exact ⟨"function Object() \x7b [native code] \x7d",
                Or.inr (Or.inr (Or.inr (Or.inr (Or.inl rfl)))),
                by simp [buildDownloadUrl, formatMap, objectProtoLookup, h1, h2, h3, h4, h5]⟩
            · by_cases h6 : jsToLower format = "__proto__"
              · exact ⟨"[object Object]",
                  Or.inr (Or.inr (Or.inr (Or.inr (Or.inr rfl)))),
                  by simp [buildDownloadUrl, formatMap, objectProtoLookup, h1, h2, h3, h4, h5, h6]⟩
              · exact ⟨"mobi", Or.inl rfl,
                  by simp [buildDownloadUrl, formatMap, objectProtoLookup, h1, h2, h3, h4, h5, h6]⟩
  · intro h
    push_neg at h
    obtain ⟨h1, h2, h3, h4, h5, h6⟩ := h
    simp [buildDownloadUrl, formatMap, objectProtoLookup, h1, h2, h3, h4, h5, h6]
  · intro h
    push_neg at h
    obtain ⟨h1, h2, h3, h4, h5, h6⟩ := h
    simp [fetchWorkDownloadUrl, buildDownloadUrls, objectProtoLookup, h1, h2, h3, h4, h5, h6]
  · intro f hf
    rcases hf with rfl | rfl | rfl | rfl <;> rfl

/-- Witness for C8's theorem: an unrecognized ordinary format falls back
to mobi in the URL builder, while fetchWork's own lookup reports it
unsupported. -/
theorem buildDownloadUrl_formats_witness :
    buildDownloadUrl "123" "docx" =
      "https://archiveofourown.org/downloads/" ++ "123" ++ "/" ++ "123" ++ "." ++ "mobi" ∧
    fetchWorkDownloadUrl "123" "docx" = none :=
  ⟨(buildDownloadUrl_formats "123" "docx").2.1 (by decide),
   (buildDownloadUrl_formats "123" "docx").2.2.1 (by decide)⟩

/-- C8 counterexample: the requested format `constructor` is outside
{mobi, epub, azw3, pdf} (case-insensitively), yet the bracket lookup
reaches the inherited `Object` constructor, so the derived URL's
extension is the stringified function rather than the mobi fallback. -/
theorem buildDownloadUrl_proto_leak_cex :
    jsToLower "constructor" ≠ "mobi" ∧ jsToLower "constructor" ≠ "epub" ∧
    jsToLower "constructor" ≠ "azw3" ∧ jsToLower "constructor" ≠ "pdf" ∧
    buildDownloadUrl "123" "constructor" =
      "https://archiveofourown.org/downloads/123/123.function Object() \x7b [native code] \x7d" ∧
    buildDownloadUrl "123" "constructor" ≠
      "https://archiveofourown.org/downloads/123/123.mobi" := by
  decide

/-- Characters of the whitespace-collapsed list are the input's characters
or the single space that replaces a run. -/
theorem collapseWs_mem : ∀ (b : Bool) (l : List Char) (c : Char),
    c ∈ collapseWs b l → c = ' ' ∨ c ∈ l := by
  intro b l
  induction l generalizing b with
  | nil => intro c hc; simp [collapseWs] at hc
  | cons a t ih =>
    intro c hc
    simp only [collapseWs] at hc
    by_cases ha : jsWs a = true
    · rw [if_pos ha] at hc
      by_cases hb : b = true
      · rw [if_pos hb] at hc
        rcases ih true c hc with h | h
        · exact Or.inl h
        · exact Or.inr (List.mem_cons_of_mem a h)
      · rw [if_neg hb] at hc
        rcases List.mem_cons.mp hc with h | h
        · exact Or.inl h
        · rcases ih true c h with h' | h'
          · exact Or.inl h'
          · exact Or.inr (List.mem_cons_of_mem a h')
    · rw [if_neg ha] at hc
      rcases List.mem_cons.mp hc with h | h
      · exact Or.inr (h ▸ List.mem_cons_self a t)
      · rcases ih false c h with h' | h'
        · exact Or.inl h'
        · exact Or.inr (List.mem_cons_of_mem a h')

/-- After a whitespace run was just collapsed, the next emitted character
is not whitespace. -/
theorem collapseWs_true_head : ∀ (l : List Char) (c : Char),
    (collapseWs true l).head? = some c → jsWs c = false := by
  intro l
  induction l with
  | nil => intro c hc; simp [collapseWs] at hc
  | cons a t ih =>
    intro c hc
    simp only [collapseWs] at hc
    by_cases ha : jsWs a = true
    · rw [if_pos ha] at hc
      simp only [if_true] at hc
      exact ih c hc
    · rw [if_neg ha] at hc
      simp only [List.head?_cons, Option.some.injEq] at hc
      subst hc
      cases hjw : jsWs a with
      | false => rfl
      | true => exact absurd hjw ha

/-- The collapsed list never holds two adjacent whitespace characters. -/
theorem collapseWs_chain : ∀ (b : Bool) (l : List Char),
    List.Chain' (fun x y => ¬(jsWs x = true ∧ jsWs y = true)) (collapseWs b l) := by
  intro b l
  induction l generalizing b with
  | nil => simp [collapseWs]
  | cons a t ih =>
    simp only [collapseWs]
    by_cases ha : jsWs a = true
    · rw [if_pos ha]
      by_cases hb : b = true
      · rw [if_pos hb]
        exact ih true
      · rw [if_neg hb]
        rw [List.chain'_cons']
        refine ⟨?_, ih true⟩
        intro y hy hcontra
        have hyw := collapseWs_true_head t y (Option.mem_def.mp hy)
        rw [hyw] at hcontra
        exact Bool.false_ne_true hcontra.2
    · rw [if_neg ha]
      rw [List.chain'_cons']
      refine ⟨?_, ih false⟩
      intro y hy hcontra
      exact ha hcontra.1

/-- Trailing-whitespace removal yields an initial segment of its input. -/
theorem dropTrailingWs_isPfx : ∀ l : List Char, dropTrailingWs l <+: l := by
  intro l
  induction l with
  | nil => simp [dropTrailingWs]
  | cons a t ih =>
    simp only [dropTrailingWs]
    by_cases h : ((dropTrailingWs t).isEmpty && jsWs a) = true
    · rw [if_pos h]
      exact List.nil_prefix
    · rw [if_neg h]
      obtain ⟨r, hr⟩ := ih
      exact ⟨r, by rw [List.cons_append, hr]⟩

/-- The last character surviving trailing-whitespace removal is not
whitespace. -/
theorem dropTrailingWs_getLast : ∀ (l : List Char) (c : Char),
    (dropTrailingWs l).getLast? = some c → jsWs c = false := by
  intro l
  induction l with
  | nil => intro c hc; simp [dropTrailingWs] at hc
  | cons a t ih =>
    intro c hc
    simp only [dropTrailingWs] at hc
    by_cases h : ((dropTrailingWs t).isEmpty && jsWs a) = true
    · rw [if_pos h] at hc
      simp at hc
    · rw [if_neg h] at hc
      cases hr : dropTrailingWs t with
      | nil =>
        rw [hr] at hc
        simp only [List.getLast?_singleton, Option.some.injEq] at hc
        subst hc
        rw [hr] at h
        simp only [List.isEmpty_nil, Bool.true_and] at h
        cases hjw : jsWs a with
        | false => rfl
        | true => exact absurd hjw h
      | cons x xs =>
        rw [hr, List.getLast?_cons_cons] at hc
        exact ih c (by rw [hr]; exact hc)

/-- Trailing-whitespace removal keeps the head when anything survives. -/
theorem dropTrailingWs_head : ∀ (l : List Char) (c : Char),
    (dropTrailingWs l).head? = some c → l.head? = some c := by
  intro l c hc
  cases l with
  | nil => simp [dropTrailingWs] at hc
  | cons a t =>
    simp only [dropTrailingWs] at hc
    by_cases h : ((dropTrailingWs t).isEmpty && jsWs a) = true
    · rw [if_pos h] at hc
      simp at hc
    · rw [if_neg h] at hc
      simp only [List.head?_cons] at hc ⊢
      exact hc

/-- The head surviving `dropWhile p` does not satisfy `p`. -/
theorem head_dropWhile_false (p : Char → Bool) : ∀ (l : List Char) (c : Char),
    (l.dropWhile p).head? = some c → p c = false := by
  intro l
  induction l with
  | nil => intro c hc; simp at hc
  | cons a t ih =>
    intro c hc
    rw [List.dropWhile_cons] at hc
    by_cases h : p a = true
    · rw [if_pos h] at hc
      exact ih c hc
    · rw [if_neg h] at hc
      simp only [List.head?_cons, Option.some.injEq] at hc
      subst hc
      cases hp : p a with
      | false => rfl
      | true => exact absurd hp h

/-- Taking a positive number of elements keeps the head. -/
theorem head?_take_pos (n : Nat) (hn : 0 < n) (l : List Char) :
    (List.take n l).head? = l.head? := by
  cases l with
  | nil => simp
  | cons a t =>
    cases n with
    | zero => exact absurd hn (lt_irrefl 0)
    | succ m => simp [List.take_succ_cons]

/-- C10 (amended): every sanitised filename is free of the invalid
filename characters, at most 100 characters long, starts with a
non-whitespace character, holds no two adjacent whitespace characters,
and — whenever the 100-character truncation did not cut it short — ends
with a non-whitespace character; the filename `fetchWork` generates is
composed exactly of two such sanitised components. -/
theorem sanitizeFilename_props (s : String) :
    (∀ c ∈ (sanitizeFilename s).toList, invalidFilenameChar c = false) ∧
    (sanitizeFilename s).toList.length ≤ 100 ∧
    (∀ c, (sanitizeFilename s).toList.head? = some c → jsWs c = false) ∧
    List.Chain' (fun x y => ¬(jsWs x = true ∧ jsWs y = true)) (sanitizeFilename s).toList ∧
    ((sanitizeFilename s).toList.length < 100 →
      ∀ c, (sanitizeFilename s).toList.getLast? = some c → jsWs c = false) ∧
    (∀ t a f, fetchWorkFileName t a f =
      sanitizeFilename t ++ " - " ++ sanitizeFilename a ++ "." ++ jsToLower f) := by
  refine ⟨?_, ?_, ?_, ?_, ?_, fun t a f => rfl⟩
  · intro c hc
    replace hc : c ∈ List.take 100 (jsTrimList (collapseWs false
        (s.toList.filter (fun c => !invalidFilenameChar c)))) := hc
    have h1 := List.mem_of_mem_take hc
    have h2 : c ∈ (collapseWs false
        (s.toList.filter (fun c => !invalidFilenameChar c))).dropWhile jsWs :=
      List.Sublist.mem h1 (List.IsPrefix.sublist (dropTrailingWs_isPfx _))
    have h3 : c ∈ collapseWs false (s.toList.filter (fun c => !invalidFilenameChar c)) :=
      List.Sublist.mem h2 (List.IsSuffix.sublist (List.dropWhile_suffix jsWs))
    rcases collapseWs_mem false _ c h3 with h | h
    · rw [h]
      decide
    · simpa using (List.mem_filter.mp h).2
  · show (List.take 100 (jsTrimList (collapseWs false
        (s.toList.filter (fun c => !invalidFilenameChar c))))).length ≤ 100
    rw [List.length_take]
    exact min_le_left _ _
  · intro c hc
    replace hc : (List.take 100 (jsTrimList (collapseWs false
        (s.toList.filter (fun c => !invalidFilenameChar c))))).head? = some c := hc
    rw [head?_take_pos 100 (by norm_num)] at hc
    have h1 : ((collapseWs false
        (s.toList.filter (fun c => !invalidFilenameChar c))).dropWhile jsWs).head? = some c :=
      dropTrailingWs_head _ c hc
    exact head_dropWhile_false jsWs _ c h1
  · show List.Chain' (fun x y => ¬(jsWs x = true ∧ jsWs y = true))
      (List.take 100 (jsTrimList (collapseWs false
        (s.toList.filter (fun c => !invalidFilenameChar c)))))
    have hc0 := collapseWs_chain false (s.toList.filter (fun c => !invalidFilenameChar c))
    have hc1 := List.Chain'.suffix hc0 (List.dropWhile_suffix jsWs)
    have hc2 := List.Chain'.prefix hc1 (dropTrailingWs_isPfx _)
    exact List.Chain'.prefix hc2 ( List.take_prefix 100 _)
  · intro hlen c hc
    replace hlen : (List.take 100 (jsTrimList (collapseWs false
        (s.toList.filter (fun c => !invalidFilenameChar c))))).length < 100 := hlen
    replace hc : (List.take 100 (jsTrimList (collapseWs false
        (s.toList.filter (fun c => !invalidFilenameChar c))))).getLast? = some c := hc
    rw [List.length_take] at hlen
    have hlt : (jsTrimList (collapseWs false
        (s.toList.filter (fun c => !invalidFilenameChar c)))).length < 100 := by
      rcases min_lt_iff.mp hlen with h | h
      · exact absurd h (lt_irrefl _)
      · exact h
    rw [List.take_of_length_le (le_of_lt hlt)] at hc
    exact dropTrailingWs_getLast _ c hc

/-- Witness for C10's theorem at a concrete title. -/
theorem sanitizeFilename_props_witness : invalidFilenameChar 'M' = false :=
  (sanitizeFilename_props "My <Fic>: name").1 'M' (by decide)

set_option maxRecDepth 10000 in
/-- C10 counterexample: truncation at 100 characters can cut right after
an interior space, so the sanitised name ends in whitespace: 99 `a`s
followed by ` b` sanitises to 99 `a`s followed by a trailing space. -/
theorem sanitizeFilename_trailing_space_cex :
    (sanitizeFilename (String.mk (List.replicate 99 'a' ++ [' ', 'b']))).toList.getLast? =
      some ' ' ∧ jsWs ' ' = true := by
  refine ⟨by decide, by decide⟩
